import Mathlib

/-!
# StudyBuddy core: session ledger, streaks, achievements, presence

Shallow embedding of the StudyBuddy backend core:

* `addStudySession`, `updateStreak`, `checkAchievements` — the user-model
  methods (backend/models/User.js).
* `deleteSession` — the `DELETE /session/:sessionId` route handler
  (backend/routes/study.js).
* `getOnlineFriends`, `connectionInit` — the socket presence layer
  (backend/index.js).

Time is modelled as integer milliseconds since the Unix epoch, with the
local timezone identified with UTC and no DST, so that `setHours(0,0,0,0)`
is truncation to a multiple of `msPerDay`, and `setDate(d + k)` is adding
`k * msPerDay`. Calendar months are computed with the standard civil
calendar conversions (proleptic Gregorian), matching JavaScript `Date`.
-/

namespace StudyBuddy

/-- Milliseconds per day. -/
def msPerDay : Int := 86400000

/-- The calendar day containing `t` (days since epoch; floor division,
matching JS local-date semantics with local = UTC). -/
def epochDay (t : Int) : Int := Int.fdiv t msPerDay

/-- `setHours(0,0,0,0)`: midnight of the day containing `t`. -/
def startOfDay (t : Int) : Int := msPerDay * epochDay t

/-- JS `Date.prototype.getDay`: 0 = Sunday … 6 = Saturday.
1970-01-01 was a Thursday (= 4). -/
def dayOfWeek (t : Int) : Int := Int.emod (epochDay t + 4) 7

/-- Days since epoch of the civil date `y-m-d` (proleptic Gregorian),
as JS `new Date(y, m-1, d)` computes it. -/
def daysFromCivil (y m d : Int) : Int :=
  let y1 := if m ≤ 2 then y - 1 else y
  let era := Int.fdiv y1 400
  let yoe := y1 - era * 400
  let mp := if m > 2 then m - 3 else m + 9
  let doy := Int.fdiv (153 * mp + 2) 5 + d - 1
  let doe := yoe * 365 + Int.fdiv yoe 4 - Int.fdiv yoe 100 + doy
  era * 146097 + doe - 719468

/-- Civil date `(y, m, d)` of a days-since-epoch count (inverse of
`daysFromCivil`), as JS `getFullYear`/`getMonth`/`getDate` compute it. -/
def civilFromDays (z0 : Int) : Int × Int × Int :=
  let z := z0 + 719468
  let era := Int.fdiv z 146097
  let doe := z - era * 146097
  let yoe := Int.fdiv (doe - Int.fdiv doe 1460 + Int.fdiv doe 36524 - Int.fdiv doe 146096) 365
  let y := yoe + era * 400
  let doy := doe - (365 * yoe + Int.fdiv yoe 4 - Int.fdiv yoe 100)
  let mp := Int.fdiv (5 * doy + 2) 153
  let d := doy - Int.fdiv (153 * mp + 2) 5 + 1
  let m := if mp < 10 then mp + 3 else mp - 9
  (if m ≤ 2 then y + 1 else y, m, d)

/-- `new Date(t.getFullYear(), t.getMonth(), 1)`: midnight of the first
day of the calendar month containing `t`. -/
def monthStartMs (t : Int) : Int :=
  let c := civilFromDays (epochDay t)
  msPerDay * daysFromCivil c.1 c.2.1 1

/-- A stored study session (subdocument of the user). `sid` models the
MongoDB subdocument `_id` used by `studySessions.id(...)`/`pull(...)`;
`subject`/`notes`/`createdAt` carry no behaviour and are omitted. -/
structure StoredSession where
  sid : Nat
  startTime : Int
  endTime : Int
  duration : Int
  deriving Repr, DecidableEq

/-- An entry of the user's `achievements` array. -/
structure AchievementEntry where
  kind : String
  date : Int
  deriving Repr, DecidableEq

/-- The behavioural fields of the persisted User document. `nextSid`
models MongoDB's generation of a fresh subdocument `_id` for each pushed
session (identity fields, friends, schedules, avatar, … are out of this
core and omitted). -/
structure User where
  studySessions : List StoredSession
  totalStudyTime : Int
  weeklyStudyTime : Int
  monthlyStudyTime : Int
  currentStreak : Int
  lastStudyDate : Option Int
  dailyGoal : Int
  achievements : List AchievementEntry
  nextSid : Nat
  deriving Repr, DecidableEq

/-- A fresh user as created by the schema defaults: no sessions, all
aggregates 0, streak 0, no `lastStudyDate`, `dailyGoal` 2 hours. -/
def initUser : User :=
  { studySessions := []
    totalStudyTime := 0
    weeklyStudyTime := 0
    monthlyStudyTime := 0
    currentStreak := 0
    lastStudyDate := none
    dailyGoal := 7200000
    achievements := []
    nextSid := 0 }

/-- The session object handed to `addStudySession` by the route. Fields
are optional so that JS falsiness checks (`!session.startTime` …) can be
expressed; `startTime`/`endTime` are `Date`s in the source, which are
truthy whenever present. -/
structure SessionInput where
  startTime : Option Int
  endTime : Option Int
  duration : Option Int
  deriving Repr, DecidableEq

/-- `userSchema.methods.updateStreak(sessionDate)`: streak update relative
to `now` (`new Date()` in the source). `sessionDate` is always a valid
date here, so the early-return guards on an invalid date do not fire. -/
def updateStreak (u : User) (sessionDate : Int) (now : Int) : User :=
  let today := startOfDay now
  let yesterday := today - msPerDay
  let sessionDay := startOfDay sessionDate
  match u.lastStudyDate with
  | none =>
      { u with currentStreak := 1, lastStudyDate := some sessionDay }
  | some lsd =>
      let lastStudyDay := startOfDay lsd
      if sessionDay = today then
        if lastStudyDay = yesterday then
          { u with currentStreak := u.currentStreak + 1, lastStudyDate := some sessionDay }
        else if lastStudyDay = today then
          u
        else
          { u with currentStreak := 1, lastStudyDate := some sessionDay }
      else
        u

/-- `achievements.some(a => a && a.type === type)`. -/
def hasAchievement (u : User) (t : String) : Bool :=
  u.achievements.any (fun a => a.kind == t)

/-- Sum of the `duration` fields of a session list. -/
def sumDur (l : List StoredSession) : Int :=
  (l.map StoredSession.duration).sum

/-- The `goal_achiever` counter in `checkAchievements`: group the sessions
of the trailing 7 days (`weekAgo = now - 7 days`, time of day preserved by
`setDate`) by calendar day (`toDateString`), sum durations per day, count
days reaching `dailyGoal` (`this.dailyGoal || 7200000`). Sessions with a
falsy (zero) duration are skipped by the grouping guard. -/
def goalDaysCount (u : User) (now : Int) : Nat :=
  let weekAgo := now - 7 * msPerDay
  let recent := u.studySessions.filter (fun s => s.startTime ≥ weekAgo)
  let grouped := recent.filter (fun s => s.duration ≠ 0)
  let days := (grouped.map (fun s => epochDay s.startTime)).dedup
  let dailyGoal := if u.dailyGoal = 0 then 7200000 else u.dailyGoal
  (days.filter (fun day =>
    ((grouped.filter (fun s => epochDay s.startTime == day)).map
        StoredSession.duration).sum ≥ dailyGoal)).length

/-- `userSchema.methods.checkAchievements()`: evaluate the rule table in
order, gated on the achievement type not being present yet, append the
new entries (dated `now`) and return the list of newly unlocked types. -/
def checkAchievements (u : User) (now : Int) : User × List String :=
  let n := u.studySessions.length
  let newAchievements :=
    (if n = 1 ∧ hasAchievement u "first_session" = false then ["first_session"] else [])
    ++ (if n ≥ 5 ∧ hasAchievement u "five_sessions" = false then ["five_sessions"] else [])
    ++ (if n ≥ 25 ∧ hasAchievement u "twenty_five_sessions" = false then
          ["twenty_five_sessions"] else [])
    ++ (if u.currentStreak ≥ 3 ∧ hasAchievement u "streak_3" = false then ["streak_3"] else [])
    ++ (if u.currentStreak ≥ 7 ∧ hasAchievement u "streak_7" = false then ["streak_7"] else [])
    ++ (if u.currentStreak ≥ 30 ∧ hasAchievement u "streak_30" = false then ["streak_30"] else [])
    ++ (if goalDaysCount u now ≥ 7 ∧ hasAchievement u "goal_achiever" = false then
          ["goal_achiever"] else [])
  ({ u with achievements :=
      u.achievements ++ newAchievements.map (fun t => ⟨t, now⟩) },
   newAchievements)

/-- `userSchema.methods.addStudySession(session)`. Validation happens
before any mutation; on success the session is pushed (with a fresh
subdocument id), the aggregates are bumped — the weekly window starts on
the most recent Sunday at midnight (`new Date(y, m, d - getDay())`) and
the monthly window on the first of the month containing `now` — then the
streak is updated and achievements are checked. `none` input models a
non-object argument. -/
def addStudySession (u : User) (input : Option SessionInput) (now : Int) :
    Except String (User × List String) :=
  match input with
  | none => Except.error "Invalid session data provided"
  | some s =>
    match s.startTime, s.endTime, s.duration with
    | some st, some et, some d =>
      if d = 0 then
        Except.error "Missing required session fields (startTime, endTime, duration)"
      else if d ≤ 0 then
        Except.error "Invalid session duration"
      else
        let u1 := { u with
          studySessions := u.studySessions ++
            [StoredSession.mk u.nextSid st et d]
          nextSid := u.nextSid + 1
          totalStudyTime := u.totalStudyTime + d }
        let weekStart := startOfDay now - dayOfWeek now * msPerDay
        let monthStart := monthStartMs now
        let u2 := { u1 with
          weeklyStudyTime :=
            if st ≥ weekStart then u1.weeklyStudyTime + d else u1.weeklyStudyTime
          monthlyStudyTime :=
            if st ≥ monthStart then u1.monthlyStudyTime + d else u1.monthlyStudyTime }
        let u3 := updateStreak u2 st now
        Except.ok (checkAchievements u3 now)
    | _, _, _ =>
        Except.error "Missing required session fields (startTime, endTime, duration)"

/-- The `DELETE /session/:sessionId` route handler's mutation of the user.
Note the source computes `weekStart = new Date(now.setDate(now.getDate() -
now.getDay()))`, which shifts back to the most recent Sunday but keeps the
time of day, and **mutates `now`**, so `monthStart` is the first of the
month containing that shifted date. -/
def deleteSession (u : User) (sessionId : Nat) (now : Int) : Except String User :=
  match u.studySessions.find? (fun s => s.sid == sessionId) with
  | none => Except.error "Session not found"
  | some session =>
    let weekStart := now - dayOfWeek now * msPerDay
    let monthStart := monthStartMs weekStart
    Except.ok { u with
      totalStudyTime := max 0 (u.totalStudyTime - session.duration)
      weeklyStudyTime :=
        if session.startTime ≥ weekStart then
          max 0 (u.weeklyStudyTime - session.duration)
        else u.weeklyStudyTime
      monthlyStudyTime :=
        if session.startTime ≥ monthStart then
          max 0 (u.monthlyStudyTime - session.duration)
        else u.monthlyStudyTime
      studySessions := u.studySessions.filter (fun s => s.sid != sessionId) }

/-! ## Presence layer (backend/index.js)

The `activeUsers` map is keyed by user id; each entry stores the friend
ids loaded at connect time (the `socketId`/`lastSeen`/live `studySession`
fields carry no behaviour for the verified operations and are omitted). -/

/-- The in-memory `activeUsers` registry: user id ↦ friend ids stored at
connect time. -/
abbrev Registry := List (String × List String)

/-- `Array.from(activeUsers.keys()).map(toString).includes(id)`. -/
def isActive (reg : Registry) (id : String) : Bool :=
  (reg.map Prod.fst).contains id

/-- `activeUsers.set(userId, entry)`: JS `Map.set` overwrites in place if
the key exists, otherwise appends. -/
def registrySet (reg : Registry) (userId : String) (friends : List String) : Registry :=
  if (reg.map Prod.fst).contains userId then
    reg.map (fun p => if p.1 == userId then (userId, friends) else p)
  else
    reg ++ [(userId, friends)]

/-- The `get_online_friends` socket handler: use the supplied candidate
list if it is a non-empty array, else fall back to the connection's
`friendIds` (the friend list loaded at connect time), and filter by
membership in `activeUsers`. `none` models an absent/falsy argument. -/
def getOnlineFriends (reg : Registry) (storedFriendIds : List String)
    (candidates : Option (List String)) : List String :=
  let idsToCheck :=
    match candidates with
    | some l => if l.length > 0 then l else storedFriendIds
    | none => storedFriendIds
  idsToCheck.filter (fun id => isActive reg id)

/-- The handler as observed by the registry: it only reads `activeUsers`
and emits the filtered list, leaving the registry untouched. -/
def getOnlineFriendsHandler (reg : Registry) (storedFriendIds : List String)
    (candidates : Option (List String)) : Registry × List String :=
  (reg, getOnlineFriends reg storedFriendIds candidates)

/-- The connection-establishment part of `io.on('connection')`: look up
the user's friend list; a thrown lookup error lands in the surrounding
`catch` which calls `socket.disconnect()`, a missing user disconnects
explicitly — in both cases before `activeUsers.set` runs. On success the
user is registered with the loaded friend list. The returned `Bool` is
`true` iff the connection proceeds (was not terminated). -/
def connectionInit (reg : Registry) (userId : String)
    (lookup : Except String (Option (List String))) : Registry × Bool :=
  match lookup with
  | Except.error _ => (reg, false)
  | Except.ok none => (reg, false)
  | Except.ok (some friends) => (registrySet reg userId friends, true)

/-! ## Operation sequences

`Op` is one user-facing mutation of the session ledger: a
`POST /session/stop` (which calls `addStudySession`) or a
`DELETE /session/:sessionId`. A failed operation (validation error,
missing session id) leaves the user unchanged, as the route returns an
error response without saving. -/

/-- One ledger operation. -/
inductive Op where
  | record (input : Option SessionInput) (now : Int)
  | remove (sessionId : Nat) (now : Int)
  deriving Repr, DecidableEq

/-- Apply one operation; failures leave the state unchanged. -/
def applyOp (u : User) : Op → User
  | Op.record input now =>
      match addStudySession u input now with
      | Except.ok r => r.1
      | Except.error _ => u
  | Op.remove sessionId now =>
      match deleteSession u sessionId now with
      | Except.ok u' => u'
      | Except.error _ => u

/-- Run a sequence of ledger operations from the fresh-user state. -/
def runOps (ops : List Op) : User :=
  ops.foldl applyOp initUser

/-! ### Concrete values used by witnesses and counterexamples -/

/-- A user with one recorded session and a studied-yesterday streak state
(day -1 relative to epoch day 0). -/
def streakUser : User :=
  { initUser with
    studySessions := [StoredSession.mk 0 (-86400000) (-84600000) 1800000]
    totalStudyTime := 1800000
    currentStreak := 5
    lastStudyDate := some (-86400000)
    nextSid := 1 }

/-- `streakUser` after recording a half-hour session started at `st =
2000` (today) at `now = 1000`: streak 6, a fresh `streak_3` achievement. -/
def streakUserAfter : User :=
  { studySessions :=
      [StoredSession.mk 0 (-86400000) (-84600000) 1800000,
       StoredSession.mk 1 2000 1800000 1800000]
    totalStudyTime := 3600000
    weeklyStudyTime := 1800000
    monthlyStudyTime := 1800000
    currentStreak := 6
    lastStudyDate := some 0
    dailyGoal := 7200000
    achievements := [AchievementEntry.mk "streak_3" 1000]
    nextSid := 2 }

/-- A user with one session and some streak/achievement state, used to
exercise the deletion frame property. -/
def frameUser : User :=
  { initUser with
    studySessions := [StoredSession.mk 0 0 500 500]
    totalStudyTime := 500
    weeklyStudyTime := 500
    monthlyStudyTime := 500
    currentStreak := 3
    lastStudyDate := some 0
    achievements := [AchievementEntry.mk "first_session" 0]
    nextSid := 1 }

/-- `frameUser` after its only session is deleted at `now = 0`. -/
def frameUserAfter : User :=
  { frameUser with
    studySessions := []
    totalStudyTime := 0
    weeklyStudyTime := 0
    monthlyStudyTime := 0 }

/-- Thursday 2026-10-01 10:00. -/
def oct1at10 : Int := msPerDay * daysFromCivil 2026 10 1 + 36000000

/-- Sunday 2026-09-27 00:30 (inside the week window of 2026-10-01 as the
spec defines it: on/after the most recent Sunday at midnight). -/
def sep27at0030 : Int := msPerDay * daysFromCivil 2026 9 27 + 1800000

/-- Tuesday 2026-09-15 12:00 (before the first of the month containing
2026-10-01). -/
def sep15noon : Int := msPerDay * daysFromCivil 2026 9 15 + 43200000

/-- A user holding the two sessions above, with aggregates consistent
with both lying in the then-current week/month when they were recorded. -/
def windowUser : User :=
  { initUser with
    studySessions :=
      [StoredSession.mk 0 sep27at0030 (sep27at0030 + 3600000) 3600000,
       StoredSession.mk 1 sep15noon (sep15noon + 3600000) 3600000]
    totalStudyTime := 7200000
    weeklyStudyTime := 3600000
    monthlyStudyTime := 7200000
    nextSid := 2 }

/-! ## Frame lemmas -/

@[simp] theorem updateStreak_studySessions (u : User) (sd now : Int) :
    (updateStreak u sd now).studySessions = u.studySessions := by
  unfold updateStreak
  cases u.lastStudyDate <;> simp only [] <;> repeat' first | rfl | split

@[simp] theorem updateStreak_totalStudyTime (u : User) (sd now : Int) :
    (updateStreak u sd now).totalStudyTime = u.totalStudyTime := by
  unfold updateStreak
  cases u.lastStudyDate <;> simp only [] <;> repeat' first | rfl | split

@[simp] theorem updateStreak_weeklyStudyTime (u : User) (sd now : Int) :
    (updateStreak u sd now).weeklyStudyTime = u.weeklyStudyTime := by
  unfold updateStreak
  cases u.lastStudyDate <;> simp only [] <;> repeat' first | rfl | split

@[simp] theorem updateStreak_monthlyStudyTime (u : User) (sd now : Int) :
    (updateStreak u sd now).monthlyStudyTime = u.monthlyStudyTime := by
  unfold updateStreak
  cases u.lastStudyDate <;> simp only [] <;> repeat' first | rfl | split

@[simp] theorem updateStreak_achievements (u : User) (sd now : Int) :
    (updateStreak u sd now).achievements = u.achievements := by
  unfold updateStreak
  cases u.lastStudyDate <;> simp only [] <;> repeat' first | rfl | split

@[simp] theorem updateStreak_nextSid (u : User) (sd now : Int) :
    (updateStreak u sd now).nextSid = u.nextSid := by
  unfold updateStreak
  cases u.lastStudyDate <;> simp only [] <;> repeat' first | rfl | split

@[simp] theorem updateStreak_dailyGoal (u : User) (sd now : Int) :
    (updateStreak u sd now).dailyGoal = u.dailyGoal := by
  unfold updateStreak
  cases u.lastStudyDate <;> simp only [] <;> repeat' first | rfl | split

@[simp] theorem checkAchievements_studySessions (u : User) (now : Int) :
    ((checkAchievements u now).1).studySessions = u.studySessions := rfl

@[simp] theorem checkAchievements_totalStudyTime (u : User) (now : Int) :
    ((checkAchievements u now).1).totalStudyTime = u.totalStudyTime := rfl

@[simp] theorem checkAchievements_weeklyStudyTime (u : User) (now : Int) :
    ((checkAchievements u now).1).weeklyStudyTime = u.weeklyStudyTime := rfl

@[simp] theorem checkAchievements_monthlyStudyTime (u : User) (now : Int) :
    ((checkAchievements u now).1).monthlyStudyTime = u.monthlyStudyTime := rfl

@[simp] theorem checkAchievements_currentStreak (u : User) (now : Int) :
    ((checkAchievements u now).1).currentStreak = u.currentStreak := rfl

@[simp] theorem checkAchievements_lastStudyDate (u : User) (now : Int) :
    ((checkAchievements u now).1).lastStudyDate = u.lastStudyDate := rfl

@[simp] theorem checkAchievements_nextSid (u : User) (now : Int) :
    ((checkAchievements u now).1).nextSid = u.nextSid := rfl

@[simp] theorem checkAchievements_dailyGoal (u : User) (now : Int) :
    ((checkAchievements u now).1).dailyGoal = u.dailyGoal := rfl

/-! ## Claim theorems -/

/-- C7: deleting an existing session leaves `currentStreak`,
`lastStudyDate` and the `achievements` list unchanged — the handler never
recomputes the streak or revokes achievements. -/
theorem deleteSession_frame (u : User) (k : Nat) (now : Int) (u' : User)
    (h : deleteSession u k now = Except.ok u') :
    u'.currentStreak = u.currentStreak ∧ u'.lastStudyDate = u.lastStudyDate ∧
      u'.achievements = u.achievements := by
  unfold deleteSession at h
  cases hf : u.studySessions.find? (fun s => s.sid == k) with
  | none => rw [hf] at h; exact Except.noConfusion h
  | some sess =>
      rw [hf] at h
      simp only [Except.ok.injEq] at h
      subst h
      exact ⟨rfl, rfl, rfl⟩

/-- Witness for C7 at a concrete user, session id and time. -/
theorem deleteSession_frame_witness :
    frameUserAfter.currentStreak = frameUser.currentStreak ∧
      frameUserAfter.lastStudyDate = frameUser.lastStudyDate ∧
      frameUserAfter.achievements = frameUser.achievements :=
  deleteSession_frame frameUser 0 0 frameUserAfter rfl

/-- C9: if the friend-list lookup throws or finds no user, the connection
is terminated and the active-users registry is left exactly as it was —
in particular no entry for the connecting user is added. -/
theorem connection_fail_closed (reg : Registry) (uid : String) :
    (∀ e, connectionInit reg uid (Except.error e) = (reg, false)) ∧
      connectionInit reg uid (Except.ok none) = (reg, false) :=
  ⟨fun _ => rfl, rfl⟩

/-- C8: with a non-empty candidate list, `get_online_friends` leaves the
registry unchanged and returns exactly the candidates that are currently
registered, with set semantics. -/
theorem getOnlineFriends_subset (reg : Registry) (stored cands : List String)
    (h : cands ≠ []) :
    (getOnlineFriendsHandler reg stored (some cands)).1 = reg ∧
      getOnlineFriends reg stored (some cands) =
        cands.filter (fun id => isActive reg id) ∧
      ∀ x, x ∈ getOnlineFriends reg stored (some cands) ↔
        x ∈ cands ∧ isActive reg x = true := by
  have hlen : 0 < cands.length := List.length_pos.mpr h
  refine ⟨rfl, ?_, fun x => ?_⟩
  · simp [getOnlineFriends, hlen]
  · simp [getOnlineFriends, hlen, List.mem_filter]

/-- Witness for C8: candidates `[A, B, C]` with only `B` connected. -/
theorem getOnlineFriends_subset_witness :
    (getOnlineFriendsHandler [("B", [])] [] (some ["A", "B", "C"])).1 = [("B", [])] ∧
      getOnlineFriends [("B", [])] [] (some ["A", "B", "C"]) =
        List.filter (fun id => isActive [("B", [])] id) ["A", "B", "C"] ∧
      ∀ x, x ∈ getOnlineFriends [("B", [])] [] (some ["A", "B", "C"]) ↔
        x ∈ ["A", "B", "C"] ∧ isActive [("B", [])] x = true :=
  getOnlineFriends_subset [("B", [])] [] ["A", "B", "C"] (by decide)

/-- C10 counterexample: called with an empty (or absent) candidate list
while no stored friend is connected, the handler returns the empty list —
the claim's "the result is not the empty set" is false as stated. -/
theorem getOnlineFriends_empty_fallback_cex :
    getOnlineFriends [("U", ["A"])] ["A"] (some []) = [] ∧
      getOnlineFriends [("U", ["A"])] ["A"] none = [] := by decide

/-- C10 (amended): with an empty or absent candidate list the handler
falls back to the friend list stored at connect time and returns its
currently connected members (which may be empty), so the result need not
be a subset of the supplied candidates. -/
theorem getOnlineFriends_empty_fallback (reg : Registry) (stored : List String)
    (cands : Option (List String)) (h : cands = none ∨ cands = some []) :
    getOnlineFriends reg stored cands = stored.filter (fun id => isActive reg id) := by
  rcases h with rfl | rfl <;> rfl

/-- Witness for the amended C10: empty candidates, one connected friend. -/
theorem getOnlineFriends_empty_fallback_witness :
    getOnlineFriends [("U", ["A", "B"]), ("B", [])] ["A", "B"] (some []) =
      List.filter (fun id => isActive [("U", ["A", "B"]), ("B", [])] id) ["A", "B"] :=
  getOnlineFriends_empty_fallback _ _ _ (Or.inr rfl)

/-- C4: `addStudySession` raises a validation error exactly when the input
is not a session object, lacks `startTime`/`endTime`/`duration`, or has a
non-positive duration; a failed call leaves the user state unchanged. -/
theorem addStudySession_error_iff (u : User) (inp : Option SessionInput) (now : Int) :
    ((∃ e, addStudySession u inp now = Except.error e) ↔
      inp = none ∨ ∃ s, inp = some s ∧
        (s.startTime = none ∨ s.endTime = none ∨ s.duration = none ∨
          ∃ d, s.duration = some d ∧ d ≤ 0)) ∧
    ∀ e, addStudySession u inp now = Except.error e →
      applyOp u (Op.record inp now) = u := by
  constructor
  · cases inp with
    | none => simp [addStudySession]
    | some s =>
        rcases hst : s.startTime with _ | st <;> rcases het : s.endTime with _ | et <;>
          rcases hd : s.duration with _ | d <;>
            simp only [addStudySession, hst, het, hd, Option.some.injEq, reduceCtorEq,
              exists_eq_left', false_or, Option.isSome_some, Option.isSome_none] <;>
          simp_all
        by_cases hd0 : d = 0
        · subst hd0; simp
        · by_cases hdle : d ≤ 0
          · simp [hd0, hdle]
          · simp [hd0, hdle]
  · intro e he
    simp [applyOp, he]

/-- Witness for C4 at a concrete zero-duration input. -/
theorem addStudySession_error_iff_witness :
    ((∃ e, addStudySession initUser
        (some (SessionInput.mk (some 0) (some 1800000) (some 0))) 0 = Except.error e) ↔
      some (SessionInput.mk (some 0) (some 1800000) (some 0)) = none ∨
        ∃ s, some (SessionInput.mk (some 0) (some 1800000) (some 0)) = some s ∧
          (s.startTime = none ∨ s.endTime = none ∨ s.duration = none ∨
            ∃ d, s.duration = some d ∧ d ≤ 0)) ∧
    ∀ e, addStudySession initUser
        (some (SessionInput.mk (some 0) (some 1800000) (some 0))) 0 = Except.error e →
      applyOp initUser
          (Op.record (some (SessionInput.mk (some 0) (some 1800000) (some 0))) 0)
        = initUser :=
  addStudySession_error_iff initUser
    (some (SessionInput.mk (some 0) (some 1800000) (some 0))) 0

/-- A successful `addStudySession` call has all input fields present, a
positive duration, and produces exactly the pipeline of the source:
append + aggregate bump, then `updateStreak`, then `checkAchievements`. -/
theorem addStudySession_ok_elim (u : User) (s : SessionInput) (now : Int)
    (out : User × List String)
    (h : addStudySession u (some s) now = Except.ok out) :
    ∃ st et d, s.startTime = some st ∧ s.endTime = some et ∧ s.duration = some d ∧
      0 < d ∧
      out = checkAchievements (updateStreak
        { u with
          studySessions := u.studySessions ++ [StoredSession.mk u.nextSid st et d]
          nextSid := u.nextSid + 1
          totalStudyTime := u.totalStudyTime + d
          weeklyStudyTime :=
            if st ≥ startOfDay now - dayOfWeek now * msPerDay then u.weeklyStudyTime + d
            else u.weeklyStudyTime
          monthlyStudyTime :=
            if st ≥ monthStartMs now then u.monthlyStudyTime + d
            else u.monthlyStudyTime }
        st now) now := by
  rcases hst : s.startTime with _ | st <;> rcases het : s.endTime with _ | et <;>
    rcases hd : s.duration with _ | d <;>
      simp only [addStudySession, hst, het, hd] at h <;> try exact Except.noConfusion h
  by_cases hd0 : d = 0
  · rw [if_pos hd0] at h; exact Except.noConfusion h
  · rw [if_neg hd0] at h
    by_cases hdle : d ≤ 0
    · rw [if_pos hdle] at h; exact Except.noConfusion h
    · rw [if_neg hdle] at h
      simp only [Except.ok.injEq] at h
      exact ⟨st, et, d, rfl, rfl, rfl, by omega, h.symm⟩

/-- C2: streak behaviour of `recordSession`. For a session dated today:
+1 if the last study day was yesterday, unchanged if it was today, reset
to 1 otherwise. With no prior `lastStudyDate` the streak becomes 1 and
`lastStudyDate` the session's day. A session not dated today (with a
prior `lastStudyDate`) changes neither field. -/
theorem recordSession_streak (u : User) (s : SessionInput) (now st : Int)
    (hst : s.startTime = some st) (u' : User) (ach : List String)
    (hok : addStudySession u (some s) now = Except.ok (u', ach)) :
    (u.lastStudyDate = none →
        u'.currentStreak = 1 ∧ u'.lastStudyDate = some (startOfDay st)) ∧
    (∀ lsd, u.lastStudyDate = some lsd →
      (startOfDay st = startOfDay now →
        (startOfDay lsd = startOfDay now - msPerDay →
            u'.currentStreak = u.currentStreak + 1) ∧
        (startOfDay lsd = startOfDay now → u'.currentStreak = u.currentStreak) ∧
        (startOfDay lsd ≠ startOfDay now - msPerDay → startOfDay lsd ≠ startOfDay now →
            u'.currentStreak = 1)) ∧
      (startOfDay st ≠ startOfDay now →
        u'.currentStreak = u.currentStreak ∧ u'.lastStudyDate = u.lastStudyDate)) := by
  obtain ⟨st', et, d, hst', het, hd, hdpos, hout⟩ :=
    addStudySession_ok_elim u s now (u', ach) hok
  rw [hst] at hst'
  injection hst' with hst''
  subst hst''
  set u2 : User :=
    { u with
      studySessions := u.studySessions ++ [StoredSession.mk u.nextSid st et d]
      nextSid := u.nextSid + 1
      totalStudyTime := u.totalStudyTime + d
      weeklyStudyTime :=
        if st ≥ startOfDay now - dayOfWeek now * msPerDay then u.weeklyStudyTime + d
        else u.weeklyStudyTime
      monthlyStudyTime :=
        if st ≥ monthStartMs now then u.monthlyStudyTime + d
        else u.monthlyStudyTime } with hu2
  have hu' : u' = (checkAchievements (updateStreak u2 st now) now).1 :=
    congrArg Prod.fst hout
  have hu's : u'.currentStreak = (updateStreak u2 st now).currentStreak := by
    rw [hu', checkAchievements_currentStreak]
  have hu'd : u'.lastStudyDate = (updateStreak u2 st now).lastStudyDate := by
    rw [hu', checkAchievements_lastStudyDate]
  have h2s : u2.currentStreak = u.currentStreak := by rw [hu2]
  have h2d : u2.lastStudyDate = u.lastStudyDate := by rw [hu2]
  constructor
  · intro hnone
    rw [hu's, hu'd]
    unfold updateStreak
    rw [h2d, hnone]
    exact ⟨rfl, rfl⟩
  · intro lsd hlsd
    constructor
    · intro htoday
      refine ⟨?_, ?_, ?_⟩
      · intro hyest
        rw [hu's]
        unfold updateStreak
        rw [h2d, hlsd]
        simp [htoday, hyest, h2s]
      · intro hsame
        by_cases hyest : startOfDay lsd = startOfDay now - msPerDay
        · exfalso
          rw [hyest] at hsame
          have hm : msPerDay = 86400000 := rfl
          omega
        · rw [hu's]
          unfold updateStreak
          rw [h2d, hlsd]
          have hm : msPerDay = 86400000 := rfl
          have hne : ¬ (startOfDay now = startOfDay now - msPerDay) := by omega
          simp [htoday, hsame, hne, h2s]
      · intro hyest hsame
        rw [hu's]
        unfold updateStreak
        rw [h2d, hlsd]
        simp [htoday, hyest, hsame, h2s]
    · intro hnottoday
      rw [hu's, hu'd]
      unfold updateStreak
      rw [h2d, hlsd]
      simp [hnottoday, h2s, h2d, hlsd]

/-- Witness for C2 at concrete values: `now = 1000` (day 0), session
started at `st = 2000` (today), last study day = -1 (yesterday). -/
theorem recordSession_streak_witness :
    (streakUser.lastStudyDate = none →
        streakUserAfter.currentStreak = 1 ∧
          streakUserAfter.lastStudyDate = some (startOfDay 2000)) ∧
    (∀ lsd, streakUser.lastStudyDate = some lsd →
      (startOfDay 2000 = startOfDay 1000 →
        (startOfDay lsd = startOfDay 1000 - msPerDay →
            streakUserAfter.currentStreak = streakUser.currentStreak + 1) ∧
        (startOfDay lsd = startOfDay 1000 →
            streakUserAfter.currentStreak = streakUser.currentStreak) ∧
        (startOfDay lsd ≠ startOfDay 1000 - msPerDay → startOfDay lsd ≠ startOfDay 1000 →
            streakUserAfter.currentStreak = 1)) ∧
      (startOfDay 2000 ≠ startOfDay 1000 →
        streakUserAfter.currentStreak = streakUser.currentStreak ∧
          streakUserAfter.lastStudyDate = streakUser.lastStudyDate)) :=
  recordSession_streak streakUser
    (SessionInput.mk (some 2000) (some 1800000) (some 1800000)) 1000 2000 rfl
    streakUserAfter ["streak_3"] rfl

/-- The `goal_achiever` day count is bounded by the number of stored
sessions: there are at most as many distinct qualifying days as sessions. -/
theorem goalDaysCount_le (u : User) (now : Int) :
    goalDaysCount u now ≤ u.studySessions.length := by
  unfold goalDaysCount
  refine le_trans (List.length_filter_le _ _) ?_
  refine le_trans (List.Sublist.length_le (List.dedup_sublist _)) ?_
  rw [List.length_map]
  exact le_trans (List.length_filter_le _ _)
    (List.length_filter_le _ _)

/-- `checkAchievements` on a user with exactly one session, no
achievements, and streak 1 unlocks exactly `first_session`. -/
theorem checkAchievements_single (u : User) (now : Int)
    (hn : u.studySessions.length = 1) (ha : u.achievements = [])
    (hs : u.currentStreak = 1) :
    checkAchievements u now =
      ({ u with achievements := [AchievementEntry.mk "first_session" now] },
       ["first_session"]) := by
  have h7 : goalDaysCount u now < 7 := by
    have := goalDaysCount_le u now
    omega
  have hno : ∀ t, hasAchievement u t = false := by
    intro t; simp [hasAchievement, ha]
  unfold checkAchievements
  rw [hn, hs]
  simp [hno, h7, ha, Nat.not_le.mpr h7]

/-- C6 (Scenario A): a fresh user recording a valid 30-minute session
dated today ends with `totalStudyTime = 1800000`, `currentStreak = 1`,
and newly unlocked achievements exactly `["first_session"]`. -/
theorem recordSession_fresh (now st et : Int)
    (h : startOfDay st = startOfDay now) :
    (addStudySession initUser
        (some (SessionInput.mk (some st) (some et) (some 1800000))) now).map
        (fun out => (out.1.totalStudyTime, out.1.currentStreak, out.2))
      = Except.ok (1800000, 1, ["first_session"]) := by
  set v : User := updateStreak
    { initUser with
      studySessions := [StoredSession.mk 0 st et 1800000]
      nextSid := 1
      totalStudyTime := 1800000
      weeklyStudyTime :=
        if st ≥ startOfDay now - dayOfWeek now * msPerDay then (1800000 : Int) else 0
      monthlyStudyTime := if st ≥ monthStartMs now then (1800000 : Int) else 0 }
    st now with hv
  have key : addStudySession initUser
      (some (SessionInput.mk (some st) (some et) (some 1800000))) now
      = Except.ok (checkAchievements v now) := rfl
  have hone : checkAchievements v now =
      ({ v with achievements := [AchievementEntry.mk "first_session" now] },
       ["first_session"]) :=
    checkAchievements_single v now rfl rfl rfl
  rw [key, hone]
  rfl

/-- Witness for C6 at `now = 0`, session `[0, 1800000)`. -/
theorem recordSession_fresh_witness :
    (addStudySession initUser
        (some (SessionInput.mk (some 0) (some 1800000) (some 1800000))) 0).map
        (fun out => (out.1.totalStudyTime, out.1.currentStreak, out.2))
      = Except.ok (1800000, 1, ["first_session"]) :=
  recordSession_fresh 0 0 1800000 rfl

/-! ### Achievement uniqueness (towards C5) -/

/-- The fixed rule-table order of achievement types. -/
def achievementOrder : List String :=
  ["first_session", "five_sessions", "twenty_five_sessions", "streak_3", "streak_7",
   "streak_30", "goal_achiever"]

theorem mem_ite_singleton {c : Prop} [Decidable c] {x t : String}
    (h : t ∈ (if c then [x] else ([] : List String))) : t = x ∧ c := by
  split at h
  · simp only [List.mem_singleton] at h
    exact ⟨h, by assumption⟩
  · simp at h

theorem ite_singleton_sublist {c : Prop} [Decidable c] (x : String) :
    List.Sublist (if c then [x] else ([] : List String)) [x] := by
  split
  · exact List.Sublist.refl _
  · exact List.nil_sublist _

/-- The newly returned achievement list follows the rule-table order. -/
theorem checkAchievements_snd_sublist (u : User) (now : Int) :
    List.Sublist (checkAchievements u now).2 achievementOrder := by
  show List.Sublist _ achievementOrder
  unfold checkAchievements achievementOrder
  exact List.Sublist.append (List.Sublist.append (List.Sublist.append (List.Sublist.append
    (List.Sublist.append (List.Sublist.append (ite_singleton_sublist _)
      (ite_singleton_sublist _)) (ite_singleton_sublist _)) (ite_singleton_sublist _))
    (ite_singleton_sublist _)) (ite_singleton_sublist _)) (ite_singleton_sublist _)

/-- One call never returns the same achievement type twice. -/
theorem checkAchievements_snd_nodup (u : User) (now : Int) :
    (checkAchievements u now).2.Nodup :=
  List.Nodup.sublist (checkAchievements_snd_sublist u now) (by decide)

/-- Every returned achievement type was not yet present. -/
theorem checkAchievements_snd_not_has (u : User) (now : Int) (t : String)
    (ht : t ∈ (checkAchievements u now).2) : hasAchievement u t = false := by
  have ht' : t ∈
      (if u.studySessions.length = 1 ∧ hasAchievement u "first_session" = false then
          ["first_session"] else [])
      ++ (if u.studySessions.length ≥ 5 ∧ hasAchievement u "five_sessions" = false then
          ["five_sessions"] else [])
      ++ (if u.studySessions.length ≥ 25 ∧ hasAchievement u "twenty_five_sessions" = false then
          ["twenty_five_sessions"] else [])
      ++ (if u.currentStreak ≥ 3 ∧ hasAchievement u "streak_3" = false then ["streak_3"] else [])
      ++ (if u.currentStreak ≥ 7 ∧ hasAchievement u "streak_7" = false then ["streak_7"] else [])
      ++ (if u.currentStreak ≥ 30 ∧ hasAchievement u "streak_30" = false then
          ["streak_30"] else [])
      ++ (if goalDaysCount u now ≥ 7 ∧ hasAchievement u "goal_achiever" = false then
          ["goal_achiever"] else []) := ht
  rcases List.mem_append.mp ht' with h6 | h
  · rcases List.mem_append.mp h6 with h5 | h
    · rcases List.mem_append.mp h5 with h4 | h
      · rcases List.mem_append.mp h4 with h3 | h
        · rcases List.mem_append.mp h3 with h2 | h
          · rcases List.mem_append.mp h2 with h1 | h
            · obtain ⟨rfl, hc⟩ := mem_ite_singleton h1; exact hc.2
            · obtain ⟨rfl, hc⟩ := mem_ite_singleton h; exact hc.2
          · obtain ⟨rfl, hc⟩ := mem_ite_singleton h; exact hc.2
        · obtain ⟨rfl, hc⟩ := mem_ite_singleton h; exact hc.2
      · obtain ⟨rfl, hc⟩ := mem_ite_singleton h; exact hc.2
    · obtain ⟨rfl, hc⟩ := mem_ite_singleton h; exact hc.2
  · obtain ⟨rfl, hc⟩ := mem_ite_singleton h; exact hc.2

/-- The updated achievements list is the old one plus the new entries. -/
theorem checkAchievements_fst_achievements (u : User) (now : Int) :
    (checkAchievements u now).1.achievements =
      u.achievements ++
        (checkAchievements u now).2.map (fun t => AchievementEntry.mk t now) := rfl

/-- `hasAchievement` is membership in the stored achievement types. -/
theorem hasAchievement_false_iff (u : User) (t : String) :
    hasAchievement u t = false ↔ t ∉ u.achievements.map AchievementEntry.kind := by
  simp [hasAchievement, List.mem_map]

/-- A successful `addStudySession` only appends to achievements. -/
theorem addStudySession_ok_achievements (u : User) (s : SessionInput) (now : Int)
    (out : User × List String) (h : addStudySession u (some s) now = Except.ok out) :
    out.1.achievements =
      u.achievements ++ out.2.map (fun t => AchievementEntry.mk t now) := by
  obtain ⟨st, et, d, hst, het, hd, hdpos, hout⟩ := addStudySession_ok_elim u s now out h
  rw [congrArg Prod.fst hout, congrArg Prod.snd hout, checkAchievements_fst_achievements,
    updateStreak_achievements]

/-- The no-duplicate-achievement-types invariant. -/
def AchNodup (u : User) : Prop :=
  (u.achievements.map AchievementEntry.kind).Nodup

theorem achNodup_checkAchievements (u : User) (now : Int) (h : AchNodup u) :
    AchNodup (checkAchievements u now).1 := by
  unfold AchNodup
  rw [checkAchievements_fst_achievements, List.map_append, List.map_map]
  have hid : (AchievementEntry.kind ∘ fun t => AchievementEntry.mk t now) = fun t => t := rfl
  rw [hid, List.map_id']
  refine List.Nodup.append h (checkAchievements_snd_nodup u now) ?_
  intro t htold htnew
  exact absurd htold
    ((hasAchievement_false_iff u t).mp (checkAchievements_snd_not_has u now t htnew))

/-- Each ledger operation preserves the uniqueness invariant. -/
theorem achNodup_applyOp (u : User) (op : Op) (h : AchNodup u) :
    AchNodup (applyOp u op) := by
  cases op with
  | record inp now =>
      cases hr : addStudySession u inp now with
      | error e => simpa only [applyOp, hr] using h
      | ok out =>
          simp only [applyOp, hr]
          cases inp with
          | none => exact Except.noConfusion hr
          | some s =>
              obtain ⟨st, et, d, hst, het, hd, hdpos, hout⟩ :=
                addStudySession_ok_elim u s now out hr
              rw [congrArg Prod.fst hout]
              apply achNodup_checkAchievements
              unfold AchNodup
              rw [updateStreak_achievements]
              exact h
  | remove k now =>
      cases hr : deleteSession u k now with
      | error e => simpa only [applyOp, hr] using h
      | ok u' =>
          simp only [applyOp, hr]
          unfold deleteSession at hr
          cases hf : u.studySessions.find? (fun s => s.sid == k) with
          | none => rw [hf] at hr; exact Except.noConfusion hr
          | some sess =>
              rw [hf] at hr
              simp only [Except.ok.injEq] at hr
              subst hr
              exact h

/-- Each ledger operation only appends to the achievements list. -/
theorem achievements_applyOp (u : User) (op : Op) :
    ∃ rest, (applyOp u op).achievements = u.achievements ++ rest := by
  cases op with
  | record inp now =>
      cases hr : addStudySession u inp now with
      | error e => exact ⟨[], by simp [applyOp, hr]⟩
      | ok out =>
          simp only [applyOp, hr]
          cases inp with
          | none => exact Except.noConfusion hr
          | some s =>
              exact ⟨out.2.map (fun t => AchievementEntry.mk t now),
                addStudySession_ok_achievements u s now out hr⟩
  | remove k now =>
      cases hr : deleteSession u k now with
      | error e => exact ⟨[], by simp [applyOp, hr]⟩
      | ok u' =>
          simp only [applyOp, hr]
          unfold deleteSession at hr
          cases hf : u.studySessions.find? (fun s => s.sid == k) with
          | none => rw [hf] at hr; exact Except.noConfusion hr
          | some sess =>
              rw [hf] at hr
              simp only [Except.ok.injEq] at hr
              subst hr
              exact ⟨[], by simp⟩

theorem achNodup_foldl (ops : List Op) :
    ∀ u, AchNodup u → AchNodup (ops.foldl applyOp u) := by
  induction ops with
  | nil => intro u h; exact h
  | cons op t ih => intro u h; exact ih _ (achNodup_applyOp u op h)

/-- C5: along any sequence of ledger operations from a fresh user, the
achievements list never holds two entries of the same type, and each step
only appends to it — entries are never removed or mutated. -/
theorem achievements_unique (ops : List Op) :
    ((runOps ops).achievements.map AchievementEntry.kind).Nodup ∧
    ∀ op, ∃ rest,
      (runOps (ops ++ [op])).achievements = (runOps ops).achievements ++ rest := by
  refine ⟨achNodup_foldl ops initUser (by simp [AchNodup, initUser]), fun op => ?_⟩
  have hsplit : runOps (ops ++ [op]) = applyOp (runOps ops) op := by
    simp [runOps, List.foldl_append]
  rw [hsplit]
  exact achievements_applyOp _ op

/-! ### The ledger invariant (towards C1) -/

theorem sumDur_append (l₁ l₂ : List StoredSession) :
    sumDur (l₁ ++ l₂) = sumDur l₁ + sumDur l₂ := by
  simp [sumDur]

theorem sumDur_cons (a : StoredSession) (l : List StoredSession) :
    sumDur (a :: l) = a.duration + sumDur l := by
  simp [sumDur]

theorem sumDur_nonneg (l : List StoredSession) (h : ∀ s ∈ l, 0 < s.duration) :
    0 ≤ sumDur l := by
  induction l with
  | nil => exact le_refl 0
  | cons a t ih =>
      rw [sumDur_cons]
      have ha := h a (List.mem_cons_self a t)
      have ht := ih (fun s hs => h s (List.mem_cons_of_mem a hs))
      omega

/-- Removing the found session from a list with distinct ids removes
exactly its duration from the sum. -/
theorem find?_filter_sumDur (l : List StoredSession) (k : Nat) (s : StoredSession)
    (hn : (l.map StoredSession.sid).Nodup)
    (hf : l.find? (fun x => x.sid == k) = some s) :
    s ∈ l ∧ sumDur (l.filter (fun x => x.sid != k)) = sumDur l - s.duration := by
  induction l with
  | nil => exact absurd hf (by simp)
  | cons a t ih =>
      rw [List.map_cons, List.nodup_cons] at hn
      by_cases hk : a.sid = k
      · have hfa : (a :: t).find? (fun x => x.sid == k) = some a := by
          simp [List.find?_cons, hk]
        rw [hfa] at hf
        injection hf with hf
        subst hf
        refine ⟨List.mem_cons_self a t, ?_⟩
        have hfilter : t.filter (fun x => x.sid != k) = t := by
          apply List.filter_eq_self.mpr
          intro x hx
          have hxs : x.sid ≠ k := by
            intro hxk
            apply hn.1
            have hmm : x.sid ∈ t.map StoredSession.sid :=
              List.mem_map_of_mem StoredSession.sid hx
            rw [hxk, ← hk] at hmm
            exact hmm
          simp [hxs]
        rw [List.filter_cons, if_neg (by simp [hk]), hfilter, sumDur_cons]
        omega
      · have hfa : (a :: t).find? (fun x => x.sid == k) =
            t.find? (fun x => x.sid == k) := by
          simp [List.find?_cons, hk]
        rw [hfa] at hf
        obtain ⟨hmem, hsum⟩ := ih hn.2 hf
        refine ⟨List.mem_cons_of_mem a hmem, ?_⟩
        rw [List.filter_cons, if_pos (by simp [hk]), sumDur_cons, sumDur_cons, hsum]
        omega

/-- The inductive ledger invariant: the cached total equals the sum of
durations, all stored durations are positive, and session ids are
distinct and below the fresh-id counter. -/
def LedgerInv (u : User) : Prop :=
  u.totalStudyTime = sumDur u.studySessions ∧
  (∀ s ∈ u.studySessions, 0 < s.duration) ∧
  (∀ s ∈ u.studySessions, s.sid < u.nextSid) ∧
  (u.studySessions.map StoredSession.sid).Nodup

theorem ledgerInv_init : LedgerInv initUser := by
  refine ⟨rfl, ?_, ?_, ?_⟩ <;> simp [initUser]

theorem ledgerInv_addStudySession (u : User) (inp : Option SessionInput) (now : Int)
    (out : User × List String) (h : addStudySession u inp now = Except.ok out)
    (hinv : LedgerInv u) : LedgerInv out.1 := by
  cases inp with
  | none => exact Except.noConfusion h
  | some s =>
      obtain ⟨st, et, d, hst, het, hd, hdpos, hout⟩ := addStudySession_ok_elim u s now out h
      have hfst := congrArg Prod.fst hout
      have h1 : out.1.studySessions =
          u.studySessions ++ [StoredSession.mk u.nextSid st et d] := by
        rw [hfst, checkAchievements_studySessions, updateStreak_studySessions]
      have h2 : out.1.totalStudyTime = u.totalStudyTime + d := by
        rw [hfst, checkAchievements_totalStudyTime, updateStreak_totalStudyTime]
      have h3 : out.1.nextSid = u.nextSid + 1 := by
        rw [hfst, checkAchievements_nextSid, updateStreak_nextSid]
      obtain ⟨htot, hpos, hsid, hnodup⟩ := hinv
      refine ⟨?_, ?_, ?_, ?_⟩
      · rw [h2, h1, sumDur_append, htot, sumDur_cons]
        show sumDur u.studySessions + d = sumDur u.studySessions + (d + sumDur [])
        have : sumDur ([] : List StoredSession) = 0 := rfl
        omega
      · rw [h1]
        intro x hx
        rcases List.mem_append.mp hx with hx | hx
        · exact hpos x hx
        · rw [List.mem_singleton] at hx
          subst hx
          exact hdpos
      · rw [h1, h3]
        intro x hx
        rcases List.mem_append.mp hx with hx | hx
        · exact lt_trans (hsid x hx) (by omega)
        · rw [List.mem_singleton] at hx
          subst hx
          show u.nextSid < u.nextSid + 1
          omega
      · rw [h1, List.map_append]
        refine List.Nodup.append hnodup (by simp) ?_
        intro a ha hb
        simp only [List.map_cons, List.map_nil, List.mem_singleton] at hb
        subst hb
        obtain ⟨x, hx, hxa⟩ := List.mem_map.mp ha
        exact absurd hxa (by have := hsid x hx; omega)

theorem ledgerInv_deleteSession (u : User) (k : Nat) (now : Int) (u' : User)
    (h : deleteSession u k now = Except.ok u') (hinv : LedgerInv u) : LedgerInv u' := by
  unfold deleteSession at h
  cases hf : u.studySessions.find? (fun s => s.sid == k) with
  | none => rw [hf] at h; exact Except.noConfusion h
  | some sess =>
      rw [hf] at h
      simp only [Except.ok.injEq] at h
      subst h
      obtain ⟨htot, hpos, hsid, hnodup⟩ := hinv
      obtain ⟨hmem, hsum⟩ := find?_filter_sumDur u.studySessions k sess hnodup hf
      have hposf : ∀ x ∈ u.studySessions.filter (fun s => s.sid != k), 0 < x.duration :=
        fun x hx => hpos x (List.mem_of_mem_filter hx)
      refine ⟨?_, hposf, ?_, ?_⟩
      · show max 0 (u.totalStudyTime - sess.duration) = _
        have h0 : 0 ≤ sumDur (u.studySessions.filter (fun s => s.sid != k)) :=
          sumDur_nonneg _ hposf
        rw [htot, hsum]
        omega
      · intro x hx
        exact hsid x (List.mem_of_mem_filter hx)
      · exact List.Nodup.sublist
          (List.Sublist.map StoredSession.sid (List.filter_sublist u.studySessions)) hnodup

theorem ledgerInv_applyOp (u : User) (op : Op) (h : LedgerInv u) :
    LedgerInv (applyOp u op) := by
  cases op with
  | record inp now =>
      cases hr : addStudySession u inp now with
      | error e => simpa only [applyOp, hr] using h
      | ok out =>
          simp only [applyOp, hr]
          exact ledgerInv_addStudySession u inp now out hr h
  | remove k now =>
      cases hr : deleteSession u k now with
      | error e => simpa only [applyOp, hr] using h
      | ok u' =>
          simp only [applyOp, hr]
          exact ledgerInv_deleteSession u k now u' hr h

theorem ledgerInv_foldl (ops : List Op) :
    ∀ u, LedgerInv u → LedgerInv (ops.foldl applyOp u) := by
  induction ops with
  | nil => intro u h; exact h
  | cons op t ih => intro u h; exact ih _ (ledgerInv_applyOp u op h)

/-- C1: after any sequence of record/remove operations from a fresh user,
the cached `totalStudyTime` equals the sum of the durations of the
currently stored sessions. -/
theorem totalStudyTime_eq_sumDur (ops : List Op) :
    (runOps ops).totalStudyTime = sumDur (runOps ops).studySessions :=
  (ledgerInv_foldl ops initUser ledgerInv_init).1

/-- C3 fails on the code: at `now` = Thursday 2026-10-01 10:00, the
session started Sunday 2026-09-27 00:30 lies in the claim's week window
(on/after the most recent Sunday at local midnight), yet deleting it
leaves `weeklyStudyTime` unchanged (the handler's `now.setDate(...)` week
start keeps the time of day, here Sunday 10:00); and the session started
2026-09-15 lies before the first of the month containing `now`
(2026-10-01), yet deleting it does subtract from `monthlyStudyTime` (the
mutated `now` has rolled back to September, so the handler's month start
is 2026-09-01). -/
theorem deleteSession_window_divergence :
    dayOfWeek oct1at10 = 4 ∧
    sep27at0030 ≥ startOfDay oct1at10 - dayOfWeek oct1at10 * msPerDay ∧
    (deleteSession windowUser 0 oct1at10).toOption.map User.weeklyStudyTime =
      some windowUser.weeklyStudyTime ∧
    sep15noon < monthStartMs oct1at10 ∧
    (deleteSession windowUser 1 oct1at10).toOption.map User.monthlyStudyTime =
      some (windowUser.monthlyStudyTime - 3600000) := by
  refine ⟨by decide, by decide, ?_, by decide, ?_⟩ <;> decide

end StudyBuddy
